import Mathlib

/-!
Shallow embedding of `gsiems/go-isbn` (`pkg/isbn/isbn.go`, `pkg/isbn/range_parser.go`).

Go strings are modelled as `List Char`; all inputs the library accepts are ASCII, where
byte-level and character-level indexing coincide.  A Go function returning `(value, error)`
is modelled with the error as an `Option GoErr` component; a Go runtime panic (out-of-range
string slicing or indexing) is modelled by the `GoOut.panic` constructor.  The global range
table `rmd` is passed explicitly as an association list.
-/

namespace GoIsbn

/-- The `errors.New` values produced by isbn.go, as a closed taxonomy. -/
inductive GoErr
  | invalidLength
  | invalidCharacterMain
  | invalidCharacterCheck
  | invalidCheckDigit
  | noRangeData
  | atoiError
deriving DecidableEq, Repr

/-- Result of a Go computation that can panic at runtime. -/
inductive GoOut (α : Type)
  | panic : GoOut α
  | ret : α → GoOut α
deriving DecidableEq, Repr

/-- Numeric value of an ASCII digit character (its byte value minus 48). -/
def digitVal (c : Char) : Nat := c.toNat - 48

/-- The character class `[0-9]` used by the Go code (regexp matches and `strconv.Atoi`). -/
def isGoDigit (c : Char) : Bool := 48 ≤ c.toNat && c.toNat ≤ 57

/-- Model of `strconv.Atoi` applied to a one-character string: succeeds exactly on a digit. -/
def goAtoiChar (c : Char) : Option Nat :=
  if isGoDigit c then some (digitVal c) else none

/-- Model of `strconv.Atoi` applied to a buffer of characters.  In the library the buffer always
consists of decimal digits (the scan runs on a string that passed `chkCharacters`), and on
such strings this agrees with Go. -/
def goAtoi (s : List Char) : Option Nat :=
  if s ≠ [] ∧ s.all isGoDigit then
    some (s.foldl (fun a c => a * 10 + digitVal c) 0)
  else none

/-- ASCII model of `strings.ToUpper` (the library only ever meets ASCII data). -/
def goToUpper (c : Char) : Char :=
  if 97 ≤ c.toNat ∧ c.toNat ≤ 122 then Char.ofNat (c.toNat - 32) else c

/-- The character class `[\s-]` removed by `stripISBN`; RE2 `\s` is `[\t\n\f\r ]`. -/
def isStripped (c : Char) : Bool :=
  c.toNat = 9 || c.toNat = 10 || c.toNat = 12 || c.toNat = 13 || c.toNat = 32 || c.toNat = 45

/-- Model of `stripISBN`: uppercase, then delete all whitespace and hyphen characters. -/
def stripISBN (isbn : List Char) : List Char :=
  (isbn.map goToUpper).filter (fun c => !isStripped c)

/-- Model of `chkLength`: the length must be exactly 10 or 13.  Only the error component of the Go
return value is ever used by callers. -/
def chkLength (isbn : List Char) : Option GoErr :=
  if isbn.length ≠ 10 ∧ isbn.length ≠ 13 then some GoErr.invalidLength else none

/-- Model of `chkCharacters`: all characters but the last must be digits, the last a digit or `X`.
The Go code slices `isbn[:len(isbn)-1]` and `isbn[len(isbn)-1:]`, which panics on the
empty string. -/
def chkCharacters (isbn : List Char) : GoOut (Option GoErr) :=
  match isbn.getLast? with
  | none => GoOut.panic
  | some checkDigit =>
    if isbn.dropLast.any (fun c => !isGoDigit c) then
      GoOut.ret (some GoErr.invalidCharacterMain)
    else if !(isGoDigit checkDigit || checkDigit.toNat = 88) then
      GoOut.ret (some GoErr.invalidCharacterCheck)
    else GoOut.ret none

/-- The summation loop of `CalcCheckDigit10` (`for i = 0; i < 9; i++`), with `k = 9 - i`
iterations remaining.  `isbn[i]` out of range is a Go panic; a non-digit character makes
`strconv.Atoi` fail and aborts with an error. -/
def cd10sum (isbn : List Char) (k i sum : Nat) : GoOut (Except GoErr Nat) :=
  match k with
  | 0 => GoOut.ret (Except.ok sum)
  | Nat.succ kr =>
    match isbn.get? i with
    | none => GoOut.panic
    | some c =>
      match goAtoiChar c with
      | none => GoOut.ret (Except.error GoErr.atoiError)
      | some v => cd10sum isbn kr (i + 1) (sum + (10 - i) * v)

/-- Rendering of the ISBN-10 remainder: `"X"` for 10, otherwise the decimal digit. -/
def renderRem10 (rem : Nat) : List Char :=
  if rem = 10 then ['X'] else [Char.ofNat (48 + rem)]

/-- Model of `CalcCheckDigit10`: weighted sum of the first nine characters, remainder mod 11. -/
def calcCheckDigit10 (isbn : List Char) : GoOut (List Char × Option GoErr) :=
  match cd10sum isbn 9 0 0 with
  | GoOut.panic => GoOut.panic
  | GoOut.ret (Except.error e) => GoOut.ret ([], some e)
  | GoOut.ret (Except.ok sum) => GoOut.ret (renderRem10 ((11 - sum % 11) % 11), none)

/-- The summation loop of `CalcCheckDigit13` (`for i = 0; i < 12; i += 2`), with `k`
pair-iterations remaining. -/
def cd13sum (isbn : List Char) (k i sum : Nat) : GoOut (Except GoErr Nat) :=
  match k with
  | 0 => GoOut.ret (Except.ok sum)
  | Nat.succ kr =>
    match isbn.get? i with
    | none => GoOut.panic
    | some c1 =>
      match goAtoiChar c1 with
      | none => GoOut.ret (Except.error GoErr.atoiError)
      | some v1 =>
        match isbn.get? (i + 1) with
        | none => GoOut.panic
        | some c2 =>
          match goAtoiChar c2 with
          | none => GoOut.ret (Except.error GoErr.atoiError)
          | some v2 => cd13sum isbn kr (i + 2) (sum + (v1 + 3 * v2))

/-- Model of `CalcCheckDigit13`: alternating 1/3-weighted sum of the first twelve characters,
remainder mod 10 (never rendered as `X`). -/
def calcCheckDigit13 (isbn : List Char) : GoOut (List Char × Option GoErr) :=
  match cd13sum isbn 6 0 0 with
  | GoOut.panic => GoOut.panic
  | GoOut.ret (Except.error e) => GoOut.ret ([], some e)
  | GoOut.ret (Except.ok sum) =>
    GoOut.ret ([Char.ofNat (48 + (10 - sum % 10) % 10)], none)

/-- Model of `CalcCheckDigit` (exported): normalize, structural checks, then dispatch on length. -/
def calcCheckDigit (input : List Char) : GoOut (List Char × Option GoErr) :=
  match chkLength (stripISBN input) with
  | some e => GoOut.ret ([], some e)
  | none =>
    match chkCharacters (stripISBN input) with
    | GoOut.panic => GoOut.panic
    | GoOut.ret (some e) => GoOut.ret ([], some e)
    | GoOut.ret none =>
      if (stripISBN input).length = 10 then calcCheckDigit10 (stripISBN input)
      else calcCheckDigit13 (stripISBN input)

/-- Model of `ValidateCheckDigit`: compare the last character of the normalized string with the
calculated check digit, ignoring any error from the calculator.  The Go code slices
`isbn[len(isbn)-1:]` before anything else, which panics when the normalized string is
empty. -/
def validateCheckDigit (input : List Char) : GoOut Bool :=
  match (stripISBN input).getLast? with
  | none => GoOut.panic
  | some provided =>
    match calcCheckDigit (stripISBN input) with
    | GoOut.panic => GoOut.panic
    | GoOut.ret (calculated, _) => GoOut.ret (decide ([provided] = calculated))

/-- Model of `chkCheckDigit`: recompute the check digit and compare with the supplied one.  The Go
code slices `isbn[len(isbn)-1:]` first (panics on empty), then re-checks the length. -/
def chkCheckDigit (isbn : List Char) : GoOut (Option GoErr) :=
  match isbn.getLast? with
  | none => GoOut.panic
  | some checkDigit =>
    match chkLength isbn with
    | some e => GoOut.ret (some e)
    | none =>
      match (if isbn.length = 10 then calcCheckDigit10 isbn else calcCheckDigit13 isbn) with
      | GoOut.panic => GoOut.panic
      | GoOut.ret (_, some e) => GoOut.ret (some e)
      | GoOut.ret (testDigit, none) =>
        if testDigit ≠ [checkDigit] then GoOut.ret (some GoErr.invalidCheckDigit)
        else GoOut.ret none

/-- One entry of `registrant.Ranges` in range_parser.go (a length-3 `[]int`). -/
structure RegRange where
  rStart : Nat
  rEnd : Nat
  rLen : Nat
deriving DecidableEq, Repr

/-- The `registrant` struct of range_parser.go. -/
structure registrant where
  Agency : List Char := []
  Ranges : List RegRange := []
deriving DecidableEq, Repr

/-- The range table `rmd : map[string]map[string]registrant`, as an association list with
the (unique) map keys. -/
abbrev rangeData := List (List Char × List (List Char × registrant))

/-- Model of `HasRangeData`: `len(rmd) > 0`. -/
def hasRangeData (rmd : rangeData) : Bool := !rmd.isEmpty

/-- The `ISBN` result struct.  The field `Pfx` models the Go field named after the EAN.UCC
prefix element (that Go name is avoided here for lexical reasons); all other field names
are kept. -/
structure ISBN where
  Pfx : List Char := []
  RegistrationGroup : List Char := []
  Registrant : List Char := []
  Publication : List Char := []
  Agency : List Char := []
  CheckDigit10 : List Char := []
  CheckDigit13 : List Char := []
  IsValid : Bool := false
deriving DecidableEq, Repr

/-- The constant `p978`. -/
def p978 : List Char := ['9', '7', '8']

/-- The inner loop over `rs.Ranges` in the registrant phase of `ParseISBN`: the candidate
buffer resolves when some range has matching field length and contains its value.  (The Go
loop has no break, but every match assigns the same value, so any-match is equivalent.) -/
def registrantMatch (rs : registrant) (reg : List Char) (chk : Nat) : Bool :=
  rs.Ranges.any fun r => reg.length == r.rLen && decide (r.rStart ≤ chk) && decide (chk ≤ r.rEnd)

/-- Publication phase of the `ParseISBN` scan loop: every remaining digit is appended to
the publication buffer, which is copied into the record each iteration. -/
def scanPub (ret : ISBN) (pub : List Char) : List Char → ISBN
  | [] => ret
  | d :: ds =>
    let pubNew := pub ++ [d]
    scanPub { ret with Publication := pubNew } pubNew ds

/-- Registrant phase of the scan loop: grow the registrant buffer, `strconv.Atoi` it
(failure aborts the parse), and resolve via `registrantMatch`. -/
def scanReg (ret : ISBN) (rs : registrant) (reg : List Char) :
    List Char → ISBN × Option GoErr
  | [] => (ret, none)
  | d :: ds =>
    let regNew := reg ++ [d]
    match goAtoi regNew with
    | none => (ret, some GoErr.atoiError)
    | some chk =>
      if registrantMatch rs regNew chk then
        (scanPub { ret with Registrant := regNew } [] ds, none)
      else scanReg ret rs regNew ds

/-- Registration-group phase of the scan loop: grow the group buffer until
`rmd[ret.Pfx][grp]` exists, then cache the rule set and move to the registrant phase. -/
def scanGrp (rmd : rangeData) (ret : ISBN) (grp : List Char) :
    List Char → ISBN × Option GoErr
  | [] => (ret, none)
  | d :: ds =>
    let grpNew := grp ++ [d]
    match (rmd.lookup ret.Pfx).bind (fun m => m.lookup grpNew) with
    | some rs =>
      scanReg { ret with RegistrationGroup := grpNew, Agency := rs.Agency } rs [] ds
    | none => scanGrp rmd ret grpNew ds

/-- EAN.UCC-prefix phase of the scan loop: grow the prefix buffer until it is a key of the
range table. -/
def scanPfx (rmd : rangeData) (ret : ISBN) (pfx : List Char) :
    List Char → ISBN × Option GoErr
  | [] => (ret, none)
  | d :: ds =>
    let pfxNew := pfx ++ [d]
    match rmd.lookup pfxNew with
    | some _ => scanGrp rmd { ret with Pfx := pfxNew } [] ds
    | none => scanPfx rmd ret pfxNew ds

/-- Lines 295-303 of isbn.go: check-digit post-processing for a 10-character string. -/
def finish10 (ret1 : ISBN) (isbn : List Char) (checkDigit : Char) :
    GoOut (ISBN × Option GoErr) :=
  match calcCheckDigit10 isbn with
  | GoOut.panic => GoOut.panic
  | GoOut.ret (chk, _) =>
    let valid := decide ([checkDigit] = chk)
    let ret2 := { ret1 with CheckDigit10 := [checkDigit], IsValid := valid }
    if valid then
      match calcCheckDigit13 (p978 ++ isbn) with
      | GoOut.panic => GoOut.panic
      | GoOut.ret (cd13, _) => GoOut.ret ({ ret2 with CheckDigit13 := cd13 }, none)
    else GoOut.ret (ret2, none)

/-- Lines 304-314 of isbn.go: check-digit post-processing for a 13-character string; when
valid and in Bookland, the ISBN-10 check digit is recomputed from the reassembled element
string with a sentinel `X` appended. -/
def finish13 (ret1 : ISBN) (isbn : List Char) (checkDigit : Char) :
    GoOut (ISBN × Option GoErr) :=
  match calcCheckDigit13 isbn with
  | GoOut.panic => GoOut.panic
  | GoOut.ret (chk, _) =>
    let valid := decide ([checkDigit] = chk)
    let ret2 := { ret1 with CheckDigit13 := [checkDigit], IsValid := valid }
    if valid && ret2.Pfx == p978 then
      match calcCheckDigit10
          (ret2.RegistrationGroup ++ ret2.Registrant ++ ret2.Publication ++ ['X']) with
      | GoOut.panic => GoOut.panic
      | GoOut.ret (cd10, _) => GoOut.ret ({ ret2 with CheckDigit10 := cd10 }, none)
    else GoOut.ret (ret2, none)

/-- Model of `ParseISBN`: normalization, the three structural checks, the range-data gate, the
element scan, and the check-digit post-processing. -/
def scanISBN (rmd : rangeData) (isbn : List Char) : ISBN × Option GoErr :=
  if isbn.length = 10 then scanGrp rmd { Pfx := p978 } [] isbn.dropLast
  else scanPfx rmd {} [] isbn.dropLast

def parseISBN (rmd : rangeData) (input : List Char) : GoOut (ISBN × Option GoErr) :=
  match chkLength (stripISBN input) with
  | some e => GoOut.ret ({}, some e)
  | none =>
  match chkCharacters (stripISBN input) with
  | GoOut.panic => GoOut.panic
  | GoOut.ret (some e) => GoOut.ret ({}, some e)
  | GoOut.ret none =>
  match chkCheckDigit (stripISBN input) with
  | GoOut.panic => GoOut.panic
  | GoOut.ret (some e) => GoOut.ret ({}, some e)
  | GoOut.ret none =>
  if !hasRangeData rmd then GoOut.ret ({}, some GoErr.noRangeData)
  else
    match scanISBN rmd (stripISBN input) with
    | (ret1, some e) => GoOut.ret (ret1, some e)
    | (ret1, none) =>
      match (stripISBN input).getLast? with
      | none => GoOut.panic
      | some checkDigit =>
        if (stripISBN input).length = 10 then finish10 ret1 (stripISBN input) checkDigit
        else if (stripISBN input).length = 13 then finish13 ret1 (stripISBN input) checkDigit
        else GoOut.ret (ret1, none)

/-- The `ISBN13` method: Prefix+Group+Registrant+Publication+CheckDigit13 when valid. -/
def ISBN.ISBN13 (x : ISBN) : List Char :=
  if x.IsValid then
    x.Pfx ++ x.RegistrationGroup ++ x.Registrant ++ x.Publication ++ x.CheckDigit13
  else []

/-- The `ISBN10` method: Group+Registrant+Publication+CheckDigit10 when the prefix is
`978`, the empty string otherwise. -/
def ISBN.ISBN10 (x : ISBN) : List Char :=
  if x.Pfx = p978 then
    x.RegistrationGroup ++ x.Registrant ++ x.Publication ++ x.CheckDigit10
  else []

/-- Modelled from the spec: the §4.2 ISBN-10 checksum `Σ over i = 0..8 of (10 − i) × digit(i)`. -/
def specChecksum10 (l : List Char) : Nat :=
  ((List.range 9).map fun i => (10 - i) * digitVal (l.getD i '0')).sum

/-- Modelled from the spec: the §4.2 ISBN-10 check digit `(11 − checksum mod 11) mod 11`,
rendered as `X` exactly when that value is 10. -/
def specCheckDigit10 (l : List Char) : List Char :=
  let r := (11 - specChecksum10 l % 11) % 11
  if r = 10 then ['X'] else [Char.ofNat (48 + r)]

/-- Modelled from the spec: the §4.2 ISBN-13 checksum `Σ over even i in 0..10 of digit(i) + 3 × digit(i+1)`. -/
def specChecksum13 (l : List Char) : Nat :=
  ((List.range 6).map fun j =>
    digitVal (l.getD (2 * j) '0') + 3 * digitVal (l.getD (2 * j + 1) '0')).sum

/-- Modelled from the spec: the §4.2 ISBN-13 check digit `(10 − checksum mod 10) mod 10`. -/
def specCheckDigit13 (l : List Char) : List Char :=
  [Char.ofNat (48 + (10 - specChecksum13 l % 10) % 10)]

/-! ### Concrete range tables and inputs used by witnesses and counterexamples -/

/-- A loaded table whose group `978-0` has no registrant ranges at all. -/
def tbl1 : rangeData := [(p978, [(['0'], { Agency := [], Ranges := [] })])]

/-- A loaded table whose group `978-0` has the single registrant rule `[500, 599]` of
field length 3. -/
def tbl2 : rangeData := [(p978, [(['0'], { Agency := [], Ranges := [⟨500, 599, 3⟩] })])]

/-- A loaded table knowing the prefix `978` but no registration group under it. -/
def tblP : rangeData := [(p978, [])]

/-- A valid ISBN-13 whose registrant never resolves under `tbl1`. -/
def s1 : List Char := ['9', '7', '8', '0', '0', '0', '0', '0', '0', '0', '0', '0', '2']

/-- The valid ISBN-13 `9780547928241` from the repository test corpus. -/
def s2 : List Char := ['9', '7', '8', '0', '5', '4', '7', '9', '2', '8', '2', '4', '1']

/-- The record `ParseISBN` produces for `s1` under `tbl1`. -/
def R1 : ISBN :=
  { Pfx := p978, RegistrationGroup := ['0'], CheckDigit13 := ['2'], IsValid := true }

/-- The record `ParseISBN` produces for `s2` under `tbl2`. -/
def R2 : ISBN :=
  { Pfx := p978, RegistrationGroup := ['0'], Registrant := ['5', '4', '7'],
    Publication := ['9', '2', '8', '2', '4'], CheckDigit10 := ['6'],
    CheckDigit13 := ['1'], IsValid := true }

/-- The record `ParseISBN` produces for `s1` under `tblP`. -/
def RP : ISBN := { Pfx := p978, CheckDigit13 := ['2'], IsValid := true }

/-- The valid ISBN-10 `0547928246` from the repository test corpus. -/
def x10 : List Char := ['0', '5', '4', '7', '9', '2', '8', '2', '4', '6']

/-- The spec §8 example input with a trailing garbage character. -/
def c8input : List Char :=
  ['9', '7', '8', '0', '5', '9', '0', '1', '3', '2', '0', '5', '3', 'F']

/-! ### Character-class lemmas -/

lemma isGoDigit_iff {c : Char} : isGoDigit c = true ↔ 48 ≤ c.toNat ∧ c.toNat ≤ 57 := by
  simp [isGoDigit]

lemma goToUpper_fixed {c : Char} (h : isGoDigit c = true ∨ c.toNat = 88) :
    goToUpper c = c := by
  rcases h with h | h
  · rw [isGoDigit_iff] at h; unfold goToUpper; rw [if_neg]; omega
  · unfold goToUpper; rw [if_neg]; omega

lemma isStripped_fixed {c : Char} (h : isGoDigit c = true ∨ c.toNat = 88) :
    isStripped c = false := by
  have hn : 48 ≤ c.toNat ∧ c.toNat ≤ 57 ∨ c.toNat = 88 := by
    rcases h with h | h
    · exact Or.inl (isGoDigit_iff.mp h)
    · exact Or.inr h
  simp only [isStripped, Bool.or_eq_false_iff, decide_eq_false_iff_not]
  omega

lemma stripISBN_fixed {l : List Char} (h : ∀ c ∈ l, isGoDigit c = true ∨ c.toNat = 88) :
    stripISBN l = l := by
  induction l with
  | nil => rfl
  | cons c cs ih =>
    have hc := h c (List.mem_cons_self c cs)
    have hcs := fun d hd => h d (List.mem_cons_of_mem c hd)
    simp [stripISBN, goToUpper_fixed hc, isStripped_fixed hc]
    simpa [stripISBN] using ih hcs

lemma renderRem10_props (rem : Nat) (h : rem ≤ 10) :
    ∃ c, renderRem10 rem = [c] ∧ (isGoDigit c = true ∨ c.toNat = 88) := by
  interval_cases rem <;> exact ⟨_, rfl, by decide⟩

/-! ### Check-digit loop lemmas -/

lemma cd10sum_append (t u : List Char) :
    ∀ (k i sum : Nat), i + k ≤ t.length →
      cd10sum (t ++ u) k i sum = cd10sum t k i sum := by
  intro k
  induction k with
  | zero => intro i sum _; rfl
  | succ kr ih =>
    intro i sum hik
    have hi : i < t.length := by omega
    have hg : (t ++ u)[i]? = t[i]? := List.getElem?_append_left hi
    cases hgc : t[i]? with
    | none => simp [cd10sum, hg, hgc]
    | some c =>
      cases hac : goAtoiChar c with
      | none => simp [cd10sum, hg, hgc, hac]
      | some v =>
        simp only [cd10sum, List.get?_eq_getElem?, hg, hgc, hac]
        exact ih (i + 1) (sum + (10 - i) * v) (by omega)

lemma cd13sum_append (t u : List Char) :
    ∀ (k i sum : Nat), i + 2 * k ≤ t.length →
      cd13sum (t ++ u) k i sum = cd13sum t k i sum := by
  intro k
  induction k with
  | zero => intro i sum _; rfl
  | succ kr ih =>
    intro i sum hik
    have hi : i < t.length := by omega
    have hi1 : i + 1 < t.length := by omega
    have hg : (t ++ u)[i]? = t[i]? := List.getElem?_append_left hi
    have hg1 : (t ++ u)[i + 1]? = t[i + 1]? := List.getElem?_append_left hi1
    cases hgc : t[i]? with
    | none => simp [cd13sum, hg, hgc]
    | some c1 =>
      cases hac : goAtoiChar c1 with
      | none => simp [cd13sum, hg, hgc, hac]
      | some v1 =>
        cases hgc1 : t[i + 1]? with
        | none => simp [cd13sum, hg, hgc, hac, hg1, hgc1]
        | some c2 =>
          cases hac2 : goAtoiChar c2 with
          | none => simp [cd13sum, hg, hgc, hac, hg1, hgc1, hac2]
          | some v2 =>
            simp only [cd13sum, List.get?_eq_getElem?, hg, hgc, hac, hg1, hgc1, hac2]
            exact ih (i + 2) (sum + (v1 + 3 * v2)) (by omega)

lemma cd10sum_ne_panic_len {l : List Char} :
    ∀ (k i sum : Nat), i + k ≤ l.length → cd10sum l k i sum ≠ GoOut.panic := by
  intro k
  induction k with
  | zero => intro i sum _; simp [cd10sum]
  | succ kr ih =>
    intro i sum hik
    have hi : i < l.length := by omega
    obtain ⟨c, hgc⟩ : ∃ c, l[i]? = some c := ⟨l[i], List.getElem?_eq_getElem hi⟩
    cases hac : goAtoiChar c with
    | none => simp [cd10sum, hgc, hac]
    | some v =>
      simp only [cd10sum, List.get?_eq_getElem?, hgc, hac]
      exact ih (i + 1) (sum + (10 - i) * v) (by omega)

lemma cd13sum_ne_panic_len {l : List Char} :
    ∀ (k i sum : Nat), i + 2 * k ≤ l.length → cd13sum l k i sum ≠ GoOut.panic := by
  intro k
  induction k with
  | zero => intro i sum _; simp [cd13sum]
  | succ kr ih =>
    intro i sum hik
    have hi : i < l.length := by omega
    have hi1 : i + 1 < l.length := by omega
    obtain ⟨c1, hgc⟩ : ∃ c, l[i]? = some c := ⟨l[i], List.getElem?_eq_getElem hi⟩
    obtain ⟨c2, hgc1⟩ : ∃ c, l[i + 1]? = some c := ⟨l[i + 1], List.getElem?_eq_getElem hi1⟩
    cases hac : goAtoiChar c1 with
    | none => simp [cd13sum, hgc, hac]
    | some v1 =>
      cases hac2 : goAtoiChar c2 with
      | none => simp [cd13sum, hgc, hac, hgc1, hac2]
      | some v2 =>
        simp only [cd13sum, List.get?_eq_getElem?, hgc, hac, hgc1, hac2]
        exact ih (i + 2) (sum + (v1 + 3 * v2)) (by omega)

lemma cd10sum_ne_panic_nondigit {l : List Char} :
    ∀ (k i sum : Nat), (∃ c ∈ l.drop i, isGoDigit c = false) →
      cd10sum l k i sum ≠ GoOut.panic := by
  intro k
  induction k with
  | zero => intro i sum _; simp [cd10sum]
  | succ kr ih =>
    intro i sum hex
    obtain ⟨c, hcmem, hcnd⟩ := hex
    have hi : i < l.length := by
      by_contra hge
      rw [List.drop_eq_nil_of_le (by omega)] at hcmem
      exact absurd hcmem (List.not_mem_nil c)
    have hdropcons : l.drop i = l[i] :: l.drop (i + 1) := List.drop_eq_getElem_cons hi
    have hgc : l[i]? = some l[i] := List.getElem?_eq_getElem hi
    cases hac : goAtoiChar l[i] with
    | none => simp [cd10sum, hgc, hac]
    | some v =>
      simp only [cd10sum, List.get?_eq_getElem?, hgc, hac]
      apply ih (i + 1) (sum + (10 - i) * v)
      refine ⟨c, ?_, hcnd⟩
      rw [hdropcons] at hcmem
      rcases List.mem_cons.mp hcmem with heq | hmem
      · exfalso
        unfold goAtoiChar at hac
        rw [heq] at hcnd
        rw [hcnd] at hac
        simp at hac
      · exact hmem

lemma calcCheckDigit10_ne_panic_len {l : List Char} (h : 9 ≤ l.length) :
    calcCheckDigit10 l ≠ GoOut.panic := by
  unfold calcCheckDigit10
  have := cd10sum_ne_panic_len (l := l) 9 0 0 (by omega)
  cases hc : cd10sum l 9 0 0 with
  | panic => exact absurd hc this
  | ret v => cases v <;> simp

lemma calcCheckDigit10_ne_panic_nondigit {l : List Char}
    (h : ∃ c ∈ l, isGoDigit c = false) : calcCheckDigit10 l ≠ GoOut.panic := by
  unfold calcCheckDigit10
  have := cd10sum_ne_panic_nondigit (l := l) 9 0 0 (by simpa using h)
  cases hc : cd10sum l 9 0 0 with
  | panic => exact absurd hc this
  | ret v => cases v <;> simp

lemma calcCheckDigit13_ne_panic_len {l : List Char} (h : 12 ≤ l.length) :
    calcCheckDigit13 l ≠ GoOut.panic := by
  unfold calcCheckDigit13
  have := cd13sum_ne_panic_len (l := l) 6 0 0 (by omega)
  cases hc : cd13sum l 6 0 0 with
  | panic => exact absurd hc this
  | ret v => cases v <;> simp

lemma getElem_mem_take {l : List Char} {i n : Nat} (h9 : i < n) (hl : i < l.length) :
    l[i] ∈ l.take n :=
  List.mem_take_iff_getElem.mpr ⟨i, by rw [lt_inf_iff]; exact ⟨h9, hl⟩, rfl⟩

/-- Reference form of the ISBN-10 weighted sum with `k` terms starting at position `i`. -/
def sumW10 (l : List Char) : Nat → Nat → Nat
  | 0, _ => 0
  | Nat.succ kr, i => (10 - i) * digitVal (l.getD i '0') + sumW10 l kr (i + 1)

/-- Reference form of the ISBN-13 alternating sum with `k` pairs starting at position `i`. -/
def sumW13 (l : List Char) : Nat → Nat → Nat
  | 0, _ => 0
  | Nat.succ kr, i =>
    digitVal (l.getD i '0') + 3 * digitVal (l.getD (i + 1) '0') + sumW13 l kr (i + 2)

lemma cd10sum_digits {l : List Char} (hlen : 9 ≤ l.length)
    (hd : ∀ c ∈ l.take 9, isGoDigit c = true) :
    ∀ (k i sum : Nat), i + k ≤ 9 →
      cd10sum l k i sum = GoOut.ret (Except.ok (sum + sumW10 l k i)) := by
  intro k
  induction k with
  | zero => intro i sum _; simp [cd10sum, sumW10]
  | succ kr ih =>
    intro i sum hik
    have hi : i < l.length := by omega
    have hgc : l[i]? = some l[i] := List.getElem?_eq_getElem hi
    have hdig : isGoDigit l[i] = true := hd l[i] (getElem_mem_take (by omega) hi)
    have hac : goAtoiChar l[i] = some (digitVal l[i]) := by simp [goAtoiChar, hdig]
    have hgd : l.getD i '0' = l[i] := List.getD_eq_getElem l '0' hi
    simp only [cd10sum, List.get?_eq_getElem?, hgc, hac]
    rw [ih (i + 1) (sum + (10 - i) * digitVal l[i]) (by omega)]
    simp only [sumW10, hgd, GoOut.ret.injEq, Except.ok.injEq]
    omega

lemma cd13sum_digits {l : List Char} (hlen : 12 ≤ l.length)
    (hd : ∀ c ∈ l.take 12, isGoDigit c = true) :
    ∀ (k i sum : Nat), i + 2 * k ≤ 12 →
      cd13sum l k i sum = GoOut.ret (Except.ok (sum + sumW13 l k i)) := by
  intro k
  induction k with
  | zero => intro i sum _; simp [cd13sum, sumW13]
  | succ kr ih =>
    intro i sum hik
    have hi : i < l.length := by omega
    have hi1 : i + 1 < l.length := by omega
    have hgc : l[i]? = some l[i] := List.getElem?_eq_getElem hi
    have hgc1 : l[i + 1]? = some l[i + 1] := List.getElem?_eq_getElem hi1
    have hdig : isGoDigit l[i] = true := hd l[i] (getElem_mem_take (by omega) hi)
    have hdig1 : isGoDigit l[i + 1] = true := hd l[i + 1] (getElem_mem_take (by omega) hi1)
    have hac : goAtoiChar l[i] = some (digitVal l[i]) := by simp [goAtoiChar, hdig]
    have hac1 : goAtoiChar l[i + 1] = some (digitVal l[i + 1]) := by simp [goAtoiChar, hdig1]
    have hgd : l.getD i '0' = l[i] := List.getD_eq_getElem l '0' hi
    have hgd1 : l.getD (i + 1) '0' = l[i + 1] := List.getD_eq_getElem l '0' hi1
    simp only [cd13sum, List.get?_eq_getElem?, hgc, hac, hgc1, hac1]
    rw [ih (i + 2) (sum + (digitVal l[i] + 3 * digitVal l[i + 1])) (by omega)]
    simp only [sumW13, hgd, hgd1, GoOut.ret.injEq, Except.ok.injEq]
    omega

lemma sumW10_eq_specChecksum10 (l : List Char) : sumW10 l 9 0 = specChecksum10 l := by
  simp [sumW10, specChecksum10, List.range_succ]

lemma sumW13_eq_specChecksum13 (l : List Char) : sumW13 l 6 0 = specChecksum13 l := by
  simp [sumW13, specChecksum13, List.range_succ]

lemma calcCheckDigit10_digits {l : List Char} (hlen : 9 ≤ l.length)
    (hd : ∀ c ∈ l.take 9, isGoDigit c = true) :
    calcCheckDigit10 l = GoOut.ret (specCheckDigit10 l, none) := by
  have h := cd10sum_digits hlen hd 9 0 0 (by omega)
  unfold calcCheckDigit10
  rw [h]
  simp only [Nat.zero_add, sumW10_eq_specChecksum10]
  simp only [specCheckDigit10, renderRem10]

lemma calcCheckDigit13_digits {l : List Char} (hlen : 12 ≤ l.length)
    (hd : ∀ c ∈ l.take 12, isGoDigit c = true) :
    calcCheckDigit13 l = GoOut.ret (specCheckDigit13 l, none) := by
  have h := cd13sum_digits hlen hd 6 0 0 (by omega)
  unfold calcCheckDigit13
  rw [h]
  simp only [Nat.zero_add, sumW13_eq_specChecksum13]
  simp only [specCheckDigit13]

/-! ### Structural-check lemmas -/

lemma chkLength_of_10 {l : List Char} (h : l.length = 10) : chkLength l = none := by
  simp [chkLength, h]

lemma chkLength_of_13 {l : List Char} (h : l.length = 13) : chkLength l = none := by
  simp [chkLength, h]

lemma chkLength_none {l : List Char} (h : chkLength l = none) :
    l.length = 10 ∨ l.length = 13 := by
  unfold chkLength at h
  split at h
  · exact absurd h (by simp)
  next hcond => omega

lemma chkCharacters_ok {l : List Char} (h : chkCharacters l = GoOut.ret none) :
    (∀ c ∈ l.dropLast, isGoDigit c = true) ∧
      ∃ lc, l.getLast? = some lc ∧ (isGoDigit lc = true ∨ lc.toNat = 88) := by
  unfold chkCharacters at h
  split at h
  · exact absurd h (by simp)
  next lc hg =>
    split at h
    · exact absurd h (by simp)
    next hmain =>
      split at h
      · exact absurd h (by simp)
      next hlast =>
        refine ⟨?_, lc, hg, ?_⟩
        · intro c hc
          by_contra hnc
          exact hmain (List.any_eq_true.mpr ⟨c, hc, by simp [hnc]⟩)
        · by_cases hdl : isGoDigit lc = true
          · exact Or.inl hdl
          · refine Or.inr ?_
            have := hlast
            simp only [Bool.not_eq_true] at hdl
            simpa [hdl] using this

lemma chkCharacters_of {l : List Char} (hne : l ≠ [])
    (hmain : ∀ c ∈ l.dropLast, isGoDigit c = true)
    (hlast : ∀ lc, l.getLast? = some lc → (isGoDigit lc = true ∨ lc.toNat = 88)) :
    chkCharacters l = GoOut.ret none := by
  obtain ⟨lc, hg⟩ := Option.isSome_iff_exists.mp (List.getLast?_isSome.mpr hne)
  have h1 : ¬((l.dropLast.any fun c => !isGoDigit c) = true) := by
    simp only [List.any_eq_true, not_exists]
    intro c
    simp only [not_and, Bool.not_eq_true]
    intro hc
    simp [hmain c hc]
  have h2 : ¬((!(isGoDigit lc || decide (lc.toNat = 88))) = true) := by
    rcases hlast lc hg with hd | hx
    · simp [hd]
    · simp [hx]
  unfold chkCharacters
  rw [hg]
  simp only [if_neg h1, if_neg h2]

lemma chkCharacters_ne_panic {l : List Char} (hne : l ≠ []) :
    chkCharacters l ≠ GoOut.panic := by
  obtain ⟨lc, hg⟩ := Option.isSome_iff_exists.mp (List.getLast?_isSome.mpr hne)
  unfold chkCharacters
  rw [hg]
  by_cases hA : (l.dropLast.any fun c => !isGoDigit c) = true
  · simp [hA]
  · by_cases hB : (!(isGoDigit lc || decide (lc.toNat = 88))) = true
    · simp [hA, hB]
    · simp [hA, hB]

lemma calcCheckDigit10_error_val {l : List Char} {cd : List Char} {e : GoErr}
    (h : calcCheckDigit10 l = GoOut.ret (cd, some e)) : cd = [] := by
  unfold calcCheckDigit10 at h
  split at h <;> simp_all

lemma calcCheckDigit13_error_val {l : List Char} {cd : List Char} {e : GoErr}
    (h : calcCheckDigit13 l = GoOut.ret (cd, some e)) : cd = [] := by
  unfold calcCheckDigit13 at h
  split at h <;> simp_all

lemma calcCheckDigit_error_val {l : List Char} {cd : List Char} {e : GoErr}
    (h : calcCheckDigit l = GoOut.ret (cd, some e)) : cd = [] := by
  unfold calcCheckDigit at h
  split at h
  · simp_all
  split at h
  · simp_all
  · simp_all
  next =>
    split at h
    · exact calcCheckDigit10_error_val h
    · exact calcCheckDigit13_error_val h

lemma chkCheckDigit_ok_13 {l : List Char} (hlen : l.length = 13)
    (h : chkCheckDigit l = GoOut.ret none) :
    ∃ lc, l.getLast? = some lc ∧ calcCheckDigit13 l = GoOut.ret ([lc], none) := by
  unfold chkCheckDigit at h
  split at h
  · exact absurd h (by simp)
  next lc hg =>
    split at h
    · exact absurd h (by simp)
    next =>
      rw [if_neg (by omega : ¬l.length = 10)] at h
      split at h
      · exact absurd h (by simp)
      · exact absurd h (by simp)
      next td hcalc =>
        split at h
        · exact absurd h (by simp)
        next htd =>
          have : td = [lc] := by
            by_contra hne
            exact htd hne
          exact ⟨lc, hg, by rw [hcalc, this]⟩

lemma chkCheckDigit_ok_10 {l : List Char} (hlen : l.length = 10)
    (h : chkCheckDigit l = GoOut.ret none) :
    ∃ lc, l.getLast? = some lc ∧ calcCheckDigit10 l = GoOut.ret ([lc], none) := by
  unfold chkCheckDigit at h
  split at h
  · exact absurd h (by simp)
  next lc hg =>
    split at h
    · exact absurd h (by simp)
    next =>
      rw [if_pos hlen] at h
      split at h
      · exact absurd h (by simp)
      · exact absurd h (by simp)
      next td hcalc =>
        split at h
        · exact absurd h (by simp)
        next htd =>
          have : td = [lc] := by
            by_contra hne
            exact htd hne
          exact ⟨lc, hg, by rw [hcalc, this]⟩

lemma chkCheckDigit_of_10 {l : List Char} (hlen : l.length = 10) {lc : Char}
    (hg : l.getLast? = some lc) (hcalc : calcCheckDigit10 l = GoOut.ret ([lc], none)) :
    chkCheckDigit l = GoOut.ret none := by
  unfold chkCheckDigit
  rw [hg, chkLength_of_10 hlen, if_pos hlen, hcalc]
  simp

/-! ### Scan-phase lemmas -/

lemma scanISBN_eq_13 {rmd : rangeData} {isbn : List Char} (h : isbn.length = 13) :
    scanISBN rmd isbn = scanPfx rmd {} [] isbn.dropLast := by
  simp [scanISBN, h]

lemma scanISBN_eq_10 {rmd : rangeData} {isbn : List Char} (h : isbn.length = 10) :
    scanISBN rmd isbn = scanGrp rmd { Pfx := p978 } [] isbn.dropLast := by
  simp [scanISBN, h]

lemma scanPub_eq : ∀ (ds : List Char) (ret : ISBN) (pub : List Char),
    ret.Publication = pub → scanPub ret pub ds = { ret with Publication := pub ++ ds } := by
  intro ds
  induction ds with
  | nil =>
    intro ret pub hp
    simp [scanPub, ← hp]
  | cons d ds ih =>
    intro ret pub hp
    simp only [scanPub]
    rw [ih { ret with Publication := pub ++ [d] } (pub ++ [d]) (by simp)]
    simp [List.append_assoc]

lemma scanReg_spec : ∀ (ds : List Char) (ret : ISBN) (rs : registrant) (reg : List Char)
    (r : ISBN), scanReg ret rs reg ds = (r, none) →
    ret.Registrant = [] → ret.Publication = [] →
    r.Pfx = ret.Pfx ∧ r.RegistrationGroup = ret.RegistrationGroup ∧ r.Agency = ret.Agency ∧
    r.CheckDigit10 = ret.CheckDigit10 ∧ r.CheckDigit13 = ret.CheckDigit13 ∧
    r.IsValid = ret.IsValid ∧
    ((r.Registrant = [] ∧ r.Publication = []) ∨
      (r.Registrant ≠ [] ∧ r.Registrant ++ r.Publication = reg ++ ds)) := by
  intro ds
  induction ds with
  | nil =>
    intro ret rs reg r h hres hpub
    simp only [scanReg] at h
    have h1 : ret = r := congrArg Prod.fst h
    subst h1
    exact ⟨rfl, rfl, rfl, rfl, rfl, rfl, Or.inl ⟨hres, hpub⟩⟩
  | cons d ds ih =>
    intro ret rs reg r h hres hpub
    simp only [scanReg] at h
    split at h
    next heqA => exact absurd (congrArg Prod.snd h) (by simp)
    next chk heqA =>
      split at h
      next hM =>
        have h1 : scanPub { ret with Registrant := reg ++ [d] } [] ds = r :=
          congrArg Prod.fst h
        rw [scanPub_eq ds { ret with Registrant := reg ++ [d] } [] (by simp [hpub])] at h1
        subst h1
        refine ⟨by simp, by simp, by simp, by simp, by simp, by simp, Or.inr ⟨by simp, ?_⟩⟩
        simp
      next hM =>
        obtain ⟨f1, f2, f3, f4, f5, f6, hdisj⟩ := ih ret rs (reg ++ [d]) r h hres hpub
        refine ⟨f1, f2, f3, f4, f5, f6, ?_⟩
        rcases hdisj with hl | ⟨hne, hcat⟩
        · exact Or.inl hl
        · exact Or.inr ⟨hne, by simpa [List.append_assoc] using hcat⟩

lemma scanGrp_spec : ∀ (ds : List Char) (rmd : rangeData) (ret : ISBN) (grp : List Char)
    (r : ISBN), scanGrp rmd ret grp ds = (r, none) →
    ret.RegistrationGroup = [] → ret.Registrant = [] → ret.Publication = [] →
    r.Pfx = ret.Pfx ∧ r.CheckDigit10 = ret.CheckDigit10 ∧ r.CheckDigit13 = ret.CheckDigit13 ∧
    r.IsValid = ret.IsValid ∧
    ((r.RegistrationGroup = [] ∧ r.Registrant = [] ∧ r.Publication = []) ∨
      (r.RegistrationGroup ≠ [] ∧
        ∃ t, r.RegistrationGroup ++ (r.Registrant ++ (r.Publication ++ t)) = grp ++ ds ∧
          (r.Registrant ≠ [] → t = []) ∧ (r.Registrant = [] → r.Publication = []))) := by
  intro ds
  induction ds with
  | nil =>
    intro rmd ret grp r h hgrp hres hpub
    simp only [scanGrp] at h
    have h1 : ret = r := congrArg Prod.fst h
    subst h1
    exact ⟨rfl, rfl, rfl, rfl, Or.inl ⟨hgrp, hres, hpub⟩⟩
  | cons d ds ih =>
    intro rmd ret grp r h hgrp hres hpub
    simp only [scanGrp] at h
    cases hL : (rmd.lookup ret.Pfx).bind (fun m => m.lookup (grp ++ [d])) with
    | some rs =>
      rw [hL] at h
      obtain ⟨f1, f2, f3, f4, f5, f6, hdisj⟩ :=
        scanReg_spec ds { ret with RegistrationGroup := grp ++ [d], Agency := rs.Agency }
          rs [] r h (by simp [hres]) (by simp [hpub])
      refine ⟨by simpa using f1, by simpa using f4, by simpa using f5, by simpa using f6,
        Or.inr ⟨?_, ?_⟩⟩
      · rw [f2]; simp
      · rcases hdisj with ⟨hrnil, hpnil⟩ | ⟨hrne, hcat⟩
        · refine ⟨ds, ?_, fun hc => absurd hrnil hc, fun _ => hpnil⟩
          rw [f2, hrnil, hpnil]
          simp
        · refine ⟨[], ?_, fun _ => rfl, fun hc => absurd hc hrne⟩
          rw [f2]
          simp only [List.append_nil] at hcat ⊢
          rw [hcat]
          simp
    | none =>
      rw [hL] at h
      obtain ⟨f1, f2, f3, f4, hdisj⟩ := ih rmd ret (grp ++ [d]) r h hgrp hres hpub
      refine ⟨f1, f2, f3, f4, ?_⟩
      rcases hdisj with hl | ⟨hne, t, hcat, ht1, ht2⟩
      · exact Or.inl hl
      · exact Or.inr ⟨hne, t, by simpa [List.append_assoc] using hcat, ht1, ht2⟩

lemma scanPfx_decomp : ∀ (ds : List Char) (rmd : rangeData) (pfx : List Char) (r : ISBN)
    (e : Option GoErr), scanPfx rmd ({} : ISBN) pfx ds = (r, e) →
    (r = {} ∧ e = none) ∨
    ∃ consumed rest, ds = consumed ++ rest ∧ consumed ≠ [] ∧
      scanGrp rmd ({ Pfx := pfx ++ consumed } : ISBN) [] rest = (r, e) := by
  intro ds
  induction ds with
  | nil =>
    intro rmd pfx r e h
    simp only [scanPfx] at h
    exact Or.inl ⟨(congrArg Prod.fst h).symm, (congrArg Prod.snd h).symm⟩
  | cons d ds ih =>
    intro rmd pfx r e h
    simp only [scanPfx] at h
    cases hL : rmd.lookup (pfx ++ [d]) with
    | some m =>
      rw [hL] at h
      exact Or.inr ⟨[d], ds, rfl, by simp, h⟩
    | none =>
      rw [hL] at h
      rcases ih rmd (pfx ++ [d]) r e h with hl | ⟨consumed, rest, hds, hcne, hsc⟩
      · exact Or.inl hl
      · refine Or.inr ⟨d :: consumed, rest, by simp [hds], by simp, ?_⟩
        simpa [List.append_assoc] using hsc

lemma finish13_fields {ret1 : ISBN} {isbn : List Char} {lastc : Char} {r : ISBN}
    {e : Option GoErr} (h : finish13 ret1 isbn lastc = GoOut.ret (r, e)) :
    r.Pfx = ret1.Pfx ∧ r.RegistrationGroup = ret1.RegistrationGroup ∧
      r.Registrant = ret1.Registrant ∧ r.Publication = ret1.Publication ∧
      r.Agency = ret1.Agency := by
  simp only [finish13] at h
  split at h
  · exact absurd h (by simp)
  next chk e13 =>
    split at h
    · split at h
      · exact absurd h (by simp)
      next cd10 e10 =>
        have h1 := congrArg Prod.fst (GoOut.ret.inj h)
        subst h1
        exact ⟨rfl, rfl, rfl, rfl, rfl⟩
    · have h1 := congrArg Prod.fst (GoOut.ret.inj h)
      subst h1
      exact ⟨rfl, rfl, rfl, rfl, rfl⟩

lemma finish10_fields {ret1 : ISBN} {isbn : List Char} {lastc : Char} {r : ISBN}
    {e : Option GoErr} (h : finish10 ret1 isbn lastc = GoOut.ret (r, e)) :
    r.Pfx = ret1.Pfx ∧ r.RegistrationGroup = ret1.RegistrationGroup ∧
      r.Registrant = ret1.Registrant ∧ r.Publication = ret1.Publication ∧
      r.Agency = ret1.Agency := by
  simp only [finish10] at h
  split at h
  · exact absurd h (by simp)
  next chk e10 =>
    split at h
    · split at h
      · exact absurd h (by simp)
      next cd13 e13 =>
        have h1 := congrArg Prod.fst (GoOut.ret.inj h)
        subst h1
        exact ⟨rfl, rfl, rfl, rfl, rfl⟩
    · have h1 := congrArg Prod.fst (GoOut.ret.inj h)
      subst h1
      exact ⟨rfl, rfl, rfl, rfl, rfl⟩

lemma parseISBN_ok_inv {rmd : rangeData} {input : List Char} {r : ISBN}
    (h : parseISBN rmd input = GoOut.ret (r, none)) :
    chkLength (stripISBN input) = none ∧
    chkCharacters (stripISBN input) = GoOut.ret none ∧
    chkCheckDigit (stripISBN input) = GoOut.ret none ∧
    hasRangeData rmd = true ∧
    ∃ ret1 lastc, (stripISBN input).getLast? = some lastc ∧
      scanISBN rmd (stripISBN input) = (ret1, none) ∧
      ((stripISBN input).length = 10 →
        finish10 ret1 (stripISBN input) lastc = GoOut.ret (r, none)) ∧
      ((stripISBN input).length = 13 →
        finish13 ret1 (stripISBN input) lastc = GoOut.ret (r, none)) := by
  unfold parseISBN at h
  split at h
  · exact absurd h (by simp)
  next hlen =>
    split at h
    · exact absurd h (by simp)
    · exact absurd h (by simp)
    next hchars =>
      split at h
      · exact absurd h (by simp)
      · exact absurd h (by simp)
      next hcd =>
        split at h
        · exact absurd h (by simp)
        next hhas =>
          refine ⟨hlen, hchars, hcd, by simpa using hhas, ?_⟩
          split at h
          next ret1 e heq => exact absurd h (by simp)
          next ret1 heq =>
            split at h
            · exact absurd h (by simp)
            next lastc hlast =>
              refine ⟨ret1, lastc, hlast, heq, ?_, ?_⟩
              · intro hl10
                rw [if_pos hl10] at h
                exact h
              · intro hl13
                rw [if_neg (by omega), if_pos hl13] at h
                exact h

lemma mem_of_getLast?_eq {l : List Char} {c : Char} (h : l.getLast? = some c) : c ∈ l := by
  have hne : l ≠ [] := by intro hc; subst hc; simp at h
  rw [List.getLast?_eq_getLast l hne] at h
  injection h with h
  rw [← h]
  exact List.getLast_mem hne

lemma calcCheckDigit10_append {t u : List Char} (h : t.length = 9) :
    calcCheckDigit10 (t ++ u) = calcCheckDigit10 t := by
  unfold calcCheckDigit10
  rw [cd10sum_append t u 9 0 0 (by omega)]

lemma calcCheckDigit13_append {t u : List Char} (h : t.length = 12) :
    calcCheckDigit13 (t ++ u) = calcCheckDigit13 t := by
  unfold calcCheckDigit13
  rw [cd13sum_append t u 6 0 0 (by omega)]

lemma specCheckDigit10_eq_render (l : List Char) :
    specCheckDigit10 l = renderRem10 ((11 - specChecksum10 l % 11) % 11) := rfl

lemma calcCheckDigit_eval {l : List Char} (hstrip : stripISBN l = l)
    (hlen : chkLength l = none) (hch : chkCharacters l = GoOut.ret none) :
    calcCheckDigit l =
      if l.length = 10 then calcCheckDigit10 l else calcCheckDigit13 l := by
  unfold calcCheckDigit
  rw [hstrip, hlen, hch]

/-! ### Claim theorems -/

/-- Claim C10 (code-bug evidence): `ValidateCheckDigit` does not return a boolean on an
input that normalizes to the empty string — the Go slice `isbn[len(isbn)-1:]` panics, so
the internal error is not degraded to `false` there. -/
theorem validateCheckDigit_empty_input_panics : validateCheckDigit [] = GoOut.panic := by
  decide

/-- Claim C8 (counterexample to the claimed error kind): parsing `"9780590132053F"` fails
with `InvalidLength` (the normalized string has 14 characters), not with the
`InvalidCharacter` errors the spec names. -/
theorem parseISBN_trailing_garbage_counterexample :
    parseISBN [] c8input = GoOut.ret ({}, some GoErr.invalidLength) ∧
    GoErr.invalidLength ≠ GoErr.invalidCharacterMain ∧
    GoErr.invalidLength ≠ GoErr.invalidCharacterCheck := by
  decide

/-- Claim C8 (amended): for every range table, `ParseISBN "9780590132053F"` fails with the
`InvalidLength` error, because the trailing garbage character makes the normalized string
14 characters long and the length check runs before the character check. -/
theorem parseISBN_trailing_garbage_invalidLength (rmd : rangeData) :
    parseISBN rmd c8input = GoOut.ret ({}, some GoErr.invalidLength) := rfl

/-- Claim C7 (counterexample): with the range table empty, parsing the empty string fails
with `InvalidLength`, not `NoRangeData` — the structural checks run before the range-data
gate. -/
theorem parseISBN_empty_table_counterexample :
    hasRangeData [] = false ∧
    parseISBN [] [] = GoOut.ret ({}, some GoErr.invalidLength) ∧
    GoErr.invalidLength ≠ GoErr.noRangeData := by
  decide

/-- Claim C7 (amended): for every input that passes the length, character and check-digit
checks, parsing with an empty range table fails with the `NoRangeData` error. -/
theorem parseISBN_empty_table_noRangeData (rmd : rangeData) (input : List Char)
    (hempty : hasRangeData rmd = false)
    (h1 : chkLength (stripISBN input) = none)
    (h2 : chkCharacters (stripISBN input) = GoOut.ret none)
    (h3 : chkCheckDigit (stripISBN input) = GoOut.ret none) :
    parseISBN rmd input = GoOut.ret ({}, some GoErr.noRangeData) := by
  unfold parseISBN
  rw [h1, h2, h3, hempty]
  simp

/-- Witness for the amended claim C7 at the concrete input `9780547928241`. -/
theorem parseISBN_empty_table_witness :
    hasRangeData [] = false ∧ chkLength (stripISBN s2) = none ∧
    chkCharacters (stripISBN s2) = GoOut.ret none ∧
    chkCheckDigit (stripISBN s2) = GoOut.ret none ∧
    parseISBN [] s2 = GoOut.ret ({}, some GoErr.noRangeData) :=
  ⟨by decide, by decide, by decide, by decide,
    parseISBN_empty_table_noRangeData [] s2 (by decide) (by decide) (by decide) (by decide)⟩

/-- Claim C6: the `ISBN10` projection concatenates Group, Registrant, Publication and
CheckDigit10 exactly when the prefix is `978`, and returns the empty string otherwise;
it does not consult `IsValid` at all. -/
theorem ISBN10_projection (x : ISBN) :
    (x.Pfx = p978 →
      x.ISBN10 = x.RegistrationGroup ++ x.Registrant ++ x.Publication ++ x.CheckDigit10) ∧
    (x.Pfx ≠ p978 → x.ISBN10 = []) ∧
    ISBN.ISBN10 { x with IsValid := false } = x.ISBN10 := by
  refine ⟨fun hp => ?_, fun hp => ?_, ?_⟩
  · simp [ISBN.ISBN10, hp]
  · simp [ISBN.ISBN10, hp]
  · simp [ISBN.ISBN10]

/-- A record with prefix `978` and `IsValid = false`, used to witness claim C6. -/
def X6 : ISBN :=
  { Pfx := p978, RegistrationGroup := ['0'], Registrant := ['5', '4', '7'],
    Publication := ['9'], CheckDigit10 := ['6'], IsValid := false }

/-- Witness for claim C6: the projection of an invalid record with prefix `978`. -/
theorem ISBN10_projection_witness :
    ISBN.ISBN10 X6 = ['0', '5', '4', '7', '9', '6'] ∧ X6.IsValid = false := by
  have h := (ISBN10_projection X6).1 (by decide)
  rw [h]
  exact ⟨by decide, by decide⟩

/-- Claim C5 (counterexample): `ValidateCheckDigit "0547928246"` is `true`, yet
`CalcCheckDigit` applied to the string with its last character removed returns an
`InvalidLength` error and the empty string (a 9-character string never passes the length
check), not the last character `'6'`. -/
theorem validateCheckDigit_slice_counterexample :
    validateCheckDigit x10 = GoOut.ret true ∧
    x10.getLast? = some '6' ∧
    calcCheckDigit x10.dropLast = GoOut.ret ([], some GoErr.invalidLength) := by
  decide

/-- Claim C5 (amended): for inputs with a non-empty normalization, `ValidateCheckDigit`
returns `true` exactly when `CalcCheckDigit` applied to the full normalized string (which
internally computes over all but the last character) returns exactly the last character of
the normalized string. -/
theorem validateCheckDigit_iff_calc (x : List Char) (h : stripISBN x ≠ []) :
    (validateCheckDigit x = GoOut.ret true) ↔
      calcCheckDigit (stripISBN x) = GoOut.ret ([(stripISBN x).getLast h], none) := by
  have hg : (stripISBN x).getLast? = some ((stripISBN x).getLast h) :=
    List.getLast?_eq_getLast _ h
  unfold validateCheckDigit
  rw [hg]
  cases hc : calcCheckDigit (stripISBN x) with
  | panic => simp
  | ret p =>
    obtain ⟨cd, e⟩ := p
    cases e with
    | none =>
      simp only [GoOut.ret.injEq, Prod.mk.injEq, and_true, decide_eq_true_eq]
      constructor
      · intro hcd; exact hcd.symm
      · intro hcd; exact hcd.symm
    | some e0 =>
      have hcd : cd = [] := calcCheckDigit_error_val hc
      subst hcd
      simp

/-- Witness for the amended claim C5 at the concrete input `0547928246`. -/
theorem validateCheckDigit_iff_calc_witness :
    stripISBN x10 ≠ [] ∧ validateCheckDigit x10 = GoOut.ret true :=
  ⟨by decide, (validateCheckDigit_iff_calc x10 (by decide)).mpr (by decide)⟩

/-- Claim C3: a registrant buffer whose length equals a rule's field length resolves
through the range scan exactly when its integer value lies in the closed interval of that
rule, provided no other rule matches the buffer. -/
theorem registrantMatch_boundary (rs : registrant) (lo hi flen : Nat) (buf : List Char)
    (v : Nat) (hmem : RegRange.mk lo hi flen ∈ rs.Ranges) (hv : goAtoi buf = some v)
    (hbl : buf.length = flen)
    (hother : ∀ rg ∈ rs.Ranges, rg ≠ RegRange.mk lo hi flen →
      ¬(buf.length = rg.rLen ∧ rg.rStart ≤ v ∧ v ≤ rg.rEnd)) :
    registrantMatch rs buf v = true ↔ (lo ≤ v ∧ v ≤ hi) := by
  unfold registrantMatch
  rw [List.any_eq_true]
  constructor
  · rintro ⟨rg, hrgmem, hrg⟩
    simp only [Bool.and_eq_true, beq_iff_eq, decide_eq_true_eq] at hrg
    obtain ⟨⟨h1, h2⟩, h3⟩ := hrg
    by_cases heq : rg = RegRange.mk lo hi flen
    · subst heq; exact ⟨h2, h3⟩
    · exact absurd ⟨h1, h2, h3⟩ (hother rg hrgmem heq)
  · rintro ⟨h1, h2⟩
    refine ⟨RegRange.mk lo hi flen, hmem, ?_⟩
    simp [hbl, h1, h2]

/-- A rule set holding the single range rule `[10, 25]` of field length 2, used to witness
claim C3. -/
def rs3 : registrant := { Agency := [], Ranges := [⟨10, 25, 2⟩] }

/-- Witness for claim C3: the buffer `10`, sitting exactly on the lower bound, resolves. -/
theorem registrantMatch_boundary_witness :
    (RegRange.mk 10 25 2 ∈ rs3.Ranges) ∧ goAtoi ['1', '0'] = some 10 ∧
    registrantMatch rs3 ['1', '0'] 10 = true :=
  ⟨by decide, by decide,
    (registrantMatch_boundary rs3 10 25 2 ['1', '0'] 10 (by decide) (by decide) (by decide)
      (by decide)).mpr (by decide)⟩

/-- Claim C4: on all-digit strings, `CalcCheckDigit` computes exactly the spec §4.2
formulas — the weighted mod-11 digit (rendered `X` at value 10) for length 10, and the
alternating mod-10 digit for length 13, which is always a decimal digit and never `X`. -/
theorem calcCheckDigit_formulas (l : List Char) (hd : ∀ c ∈ l, isGoDigit c = true) :
    (l.length = 10 → calcCheckDigit l = GoOut.ret (specCheckDigit10 l, none)) ∧
    (l.length = 13 → calcCheckDigit l = GoOut.ret (specCheckDigit13 l, none) ∧
      ∃ d, d ≤ 9 ∧ specCheckDigit13 l = [Char.ofNat (48 + d)] ∧ Char.ofNat (48 + d) ≠ 'X') := by
  have hstrip : stripISBN l = l := stripISBN_fixed (fun c hc => Or.inl (hd c hc))
  constructor
  · intro h10
    have hne : l ≠ [] := List.ne_nil_of_length_pos (by omega)
    have hch : chkCharacters l = GoOut.ret none :=
      chkCharacters_of hne (fun c hc => hd c (List.dropLast_subset l hc))
        (fun lc hlc => Or.inl (hd lc (mem_of_getLast?_eq hlc)))
    rw [calcCheckDigit_eval hstrip (chkLength_of_10 h10) hch, if_pos h10]
    exact calcCheckDigit10_digits (by omega) (fun c hc => hd c (List.take_subset 9 l hc))
  · intro h13
    have hne : l ≠ [] := List.ne_nil_of_length_pos (by omega)
    have hch : chkCharacters l = GoOut.ret none :=
      chkCharacters_of hne (fun c hc => hd c (List.dropLast_subset l hc))
        (fun lc hlc => Or.inl (hd lc (mem_of_getLast?_eq hlc)))
    constructor
    · rw [calcCheckDigit_eval hstrip (chkLength_of_13 h13) hch, if_neg (by omega)]
      exact calcCheckDigit13_digits (by omega) (fun c hc => hd c (List.take_subset 12 l hc))
    · have hX : ∀ dd < 10, Char.ofNat (48 + dd) ≠ 'X' := by decide
      refine ⟨(10 - specChecksum13 l % 10) % 10, ?_, rfl, ?_⟩
      · omega
      · exact hX _ (by omega)

/-- Witness for claim C4 at the all-digit ISBN-10 string `0547928246`. -/
theorem calcCheckDigit_formulas_witness :
    (∀ c ∈ x10, isGoDigit c = true) ∧
    calcCheckDigit x10 = GoOut.ret (specCheckDigit10 x10, none) ∧
    specCheckDigit10 x10 = ['6'] :=
  ⟨by decide, (calcCheckDigit_formulas x10 (by decide)).1 (by decide), by decide⟩

/-- The 10-character string handed to `CalcCheckDigit10` always contains the appended
non-digit `'X'`, so the summation loop stops before any out-of-range index. -/
lemma calcCheckDigit10_cross_ne_panic (g t p : List Char) :
    calcCheckDigit10 (g ++ t ++ p ++ ['X']) ≠ GoOut.panic := by
  apply calcCheckDigit10_ne_panic_nondigit
  refine ⟨'X', ?_, by decide⟩
  simp

lemma finish10_ne_panic {ret1 : ISBN} {isbn : List Char} {lastc : Char}
    (hlen : isbn.length = 10) : finish10 ret1 isbn lastc ≠ GoOut.panic := by
  simp only [finish10]
  split
  next heq => exact absurd heq (calcCheckDigit10_ne_panic_len (by omega))
  next chk e heq =>
    split
    · split
      next heq13 =>
        exact absurd heq13 (calcCheckDigit13_ne_panic_len (by simp [p978, hlen]))
      next cd13 e13 heq13 => simp
    · simp

lemma finish13_ne_panic {ret1 : ISBN} {isbn : List Char} {lastc : Char}
    (hlen : isbn.length = 13) : finish13 ret1 isbn lastc ≠ GoOut.panic := by
  simp only [finish13]
  split
  next heq => exact absurd heq (calcCheckDigit13_ne_panic_len (by omega))
  next chk e heq =>
    split
    · split
      next heq10 =>
        exact absurd heq10 (calcCheckDigit10_cross_ne_panic _ _ _)
      next cd10 e10 heq10 => simp
    · simp

lemma chkCheckDigit_ne_panic {l : List Char} (hl : l.length = 10 ∨ l.length = 13) :
    chkCheckDigit l ≠ GoOut.panic := by
  have hne : l ≠ [] := by
    intro hc; subst hc; simp at hl
  obtain ⟨lc, hg⟩ := Option.isSome_iff_exists.mp (List.getLast?_isSome.mpr hne)
  have hcl : chkLength l = none := by
    rcases hl with h | h
    exacts [chkLength_of_10 h, chkLength_of_13 h]
  unfold chkCheckDigit
  rw [hg, hcl]
  rcases hl with h | h
  · rw [if_pos h]
    cases hc : calcCheckDigit10 l with
    | panic => exact absurd hc (calcCheckDigit10_ne_panic_len (by omega))
    | ret p =>
      obtain ⟨td, e⟩ := p
      cases e with
      | none =>
        by_cases htd : td ≠ [lc]
        · simp [htd]
        · simp [htd]
      | some e0 => simp
  · rw [if_neg (by omega)]
    cases hc : calcCheckDigit13 l with
    | panic => exact absurd hc (calcCheckDigit13_ne_panic_len (by omega))
    | ret p =>
      obtain ⟨td, e⟩ := p
      cases e with
      | none =>
        by_cases htd : td ≠ [lc]
        · simp [htd]
        · simp [htd]
      | some e0 => simp

/-- Claim C9 (amended): `ParseISBN` never panics, for every range table and every input.
In the cross-format branch the string handed to `CalcCheckDigit10` may be shorter than 9
characters when group or registrant resolution failed, but its summation loop always hits
the appended non-digit `'X'` before running out of characters. -/
theorem parseISBN_total (rmd : rangeData) (input : List Char) :
    parseISBN rmd input ≠ GoOut.panic := by
  unfold parseISBN
  cases hl : chkLength (stripISBN input) with
  | some e => simp
  | none =>
    have hlens := chkLength_none hl
    have hne : stripISBN input ≠ [] := by
      intro hc
      rw [hc] at hlens
      simp at hlens
    cases hch : chkCharacters (stripISBN input) with
    | panic => exact absurd hch (chkCharacters_ne_panic hne)
    | ret o =>
      cases o with
      | some e => simp
      | none =>
        cases hcd : chkCheckDigit (stripISBN input) with
        | panic => exact absurd hcd (chkCheckDigit_ne_panic hlens)
        | ret o2 =>
          cases o2 with
          | some e => simp
          | none =>
            by_cases hhas : (!hasRangeData rmd) = true
            · simp [hhas]
            · rw [if_neg hhas]
              rcases hsc : scanISBN rmd (stripISBN input) with ⟨ret1, e1⟩
              cases e1 with
              | some e => simp
              | none =>
                obtain ⟨lc, hg⟩ :=
                  Option.isSome_iff_exists.mp (List.getLast?_isSome.mpr hne)
                rw [hg]
                show (if (stripISBN input).length = 10
                    then finish10 ret1 (stripISBN input) lc
                    else if (stripISBN input).length = 13
                      then finish13 ret1 (stripISBN input) lc
                      else GoOut.ret (ret1, none)) ≠ GoOut.panic
                rcases hlens with h10 | h13
                · rw [if_pos h10]
                  exact finish10_ne_panic h10
                · rw [if_neg (by omega), if_pos h13]
                  exact finish13_ne_panic h13

/-- Claim C9 (counterexample to the length bound): under a loaded table that knows the
prefix `978` but no registration group, the cross-format branch runs on a valid input and
the string handed to `CalcCheckDigit10` is just `"X"`, of length 1 — far below 9. -/
theorem parseISBN_short_cross_format_counterexample :
    parseISBN tblP s1 = GoOut.ret (RP, none) ∧ RP.IsValid = true ∧ RP.Pfx = p978 ∧
    (RP.RegistrationGroup ++ RP.Registrant ++ RP.Publication ++ ['X']).length < 9 := by
  decide

/-- Claim C1 (counterexample to the partition invariant): under `tbl1` the registrant of
the valid ISBN `s1` never resolves, the unresolved digits appear in no field, and the
four-field concatenation is a strict prefix of the twelve digits — and `Publication` is
empty rather than absorbing the remainder. -/
theorem parseISBN_partition_counterexample :
    parseISBN tbl1 s1 = GoOut.ret (R1, none) ∧
    R1.Pfx ++ R1.RegistrationGroup ++ R1.Registrant ++ R1.Publication ≠
      (stripISBN s1).dropLast ∧
    R1.Registrant = [] ∧ R1.Publication = [] ∧ (stripISBN s1).dropLast.length = 12 := by
  decide

/-- Claim C1 (amended): for every accepted 13-digit input, the concatenation
`Prefix ++ RegistrationGroup ++ Registrant ++ Publication` is a prefix of the twelve
digits preceding the check digit; it equals all twelve whenever the registrant resolved
(the converse need not hold: a long enough prefix key can absorb all twelve digits by
itself), and whenever the registrant never resolves both `Registrant` and `Publication`
are left empty (the digits consumed by the failed phase appear in no field). -/
theorem parseISBN_element_fields (rmd : rangeData) (input : List Char) (r : ISBN)
    (h : parseISBN rmd input = GoOut.ret (r, none))
    (hlen : (stripISBN input).length = 13) :
    (∃ t, r.Pfx ++ r.RegistrationGroup ++ r.Registrant ++ r.Publication ++ t
        = (stripISBN input).dropLast) ∧
    (r.Registrant ≠ [] →
      r.Pfx ++ r.RegistrationGroup ++ r.Registrant ++ r.Publication
        = (stripISBN input).dropLast) ∧
    (r.Registrant = [] → r.Publication = []) := by
  obtain ⟨h1, h2, h3, h4, ret1, lastc, hg, hscan, hf10, hf13⟩ := parseISBN_ok_inv h
  obtain ⟨e1, e2, e3, e4, e5⟩ := finish13_fields (hf13 hlen)
  rw [scanISBN_eq_13 hlen] at hscan
  rcases scanPfx_decomp _ rmd [] ret1 none hscan with ⟨hr1, -⟩ |
    ⟨consumed, rest, hds, hcne, hsg⟩
  · refine ⟨⟨(stripISBN input).dropLast, ?_⟩, fun hc => ?_, fun _ => ?_⟩
    · rw [e1, e2, e3, e4, hr1]
      simp
    · rw [e3, hr1] at hc
      simp at hc
    · rw [e4, hr1]
  · obtain ⟨f1, f2, f3, f4, hdisj⟩ := scanGrp_spec rest rmd _ [] ret1 hsg rfl rfl rfl
    have hpfx : ret1.Pfx = consumed := by simpa using f1
    rcases hdisj with ⟨hgnil, hrnil, hpnil⟩ | ⟨hgne, t, hcat, ht1, ht2⟩
    · refine ⟨⟨rest, ?_⟩, fun hc => ?_, fun _ => ?_⟩
      · rw [e1, e2, e3, e4, hpfx, hgnil, hrnil, hpnil, hds]
        simp
      · rw [e3, hrnil] at hc
        exact absurd rfl hc
      · rw [e4, hpnil]
    · have hcat0 : ret1.RegistrationGroup ++ (ret1.Registrant ++ (ret1.Publication ++ t))
          = rest := by simpa using hcat
      refine ⟨⟨t, ?_⟩, fun hc => ?_, fun hc => ?_⟩
      · rw [e1, e2, e3, e4, hpfx, hds, ← hcat0]
        simp [List.append_assoc]
      · rw [e3] at hc
        have ht := ht1 hc
        subst ht
        rw [e1, e2, e3, e4, hpfx, hds, ← hcat0]
        simp [List.append_assoc]
      · rw [e3] at hc
        rw [e4, ht2 hc]

/-- Witness for the amended claim C1: under `tbl2` the input `s2` resolves fully and the
four fields exactly cover the twelve digits. -/
theorem parseISBN_element_fields_witness :
    parseISBN tbl2 s2 = GoOut.ret (R2, none) ∧ (stripISBN s2).length = 13 ∧
    ((∃ t, R2.Pfx ++ R2.RegistrationGroup ++ R2.Registrant ++ R2.Publication ++ t
        = (stripISBN s2).dropLast) ∧
      (R2.Registrant ≠ [] →
        R2.Pfx ++ R2.RegistrationGroup ++ R2.Registrant ++ R2.Publication
          = (stripISBN s2).dropLast) ∧
      (R2.Registrant = [] → R2.Publication = [])) :=
  ⟨by decide, by decide, parseISBN_element_fields tbl2 s2 R2 (by decide) (by decide)⟩

/-- Claim C2 (counterexample): under the loaded table `tbl1` the valid `978`-prefixed
ISBN-13 `s1` parses with an unresolved registrant, its `ISBN10` projection degenerates to
the single character `0`, and re-parsing that projection fails — the round trip returns
the empty string instead of `s1`. -/
theorem parseISBN_roundtrip_counterexample :
    hasRangeData tbl1 = true ∧
    parseISBN tbl1 s1 = GoOut.ret (R1, none) ∧ R1.IsValid = true ∧ R1.Pfx = p978 ∧
    ISBN.ISBN10 R1 = ['0'] ∧
    parseISBN tbl1 (ISBN.ISBN10 R1) = GoOut.ret ({}, some GoErr.invalidLength) ∧
    ISBN.ISBN13 ({} : ISBN) ≠ stripISBN s1 := by
  decide

/-- Claim C2 (amended): for every accepted 13-character input whose parse resolves the
prefix to `978` and resolves a non-empty registrant, converting to ISBN-10 and re-parsing
round-trips: the second parse succeeds and its `ISBN13` projection returns the original
normalized string. -/
theorem parseISBN_isbn10_roundtrip (rmd : rangeData) (s : List Char) (r : ISBN)
    (h : parseISBN rmd s = GoOut.ret (r, none))
    (hlen : (stripISBN s).length = 13)
    (hp : r.Pfx = p978) (hreg : r.Registrant ≠ []) :
    ∃ u, parseISBN rmd (ISBN.ISBN10 r) = GoOut.ret (u, none) ∧
      ISBN.ISBN13 u = stripISBN s := by
  obtain ⟨h1, h2, h3, h4, ret1, lastc, hg, hscan, hf10, hf13⟩ := parseISBN_ok_inv h
  have hfin := hf13 hlen
  obtain ⟨e1, e2, e3, e4, e5⟩ := finish13_fields hfin
  have hp1 : ret1.Pfx = p978 := by rw [← e1]; exact hp
  have hreg1 : ret1.Registrant ≠ [] := by rw [← e3]; exact hreg
  rw [scanISBN_eq_13 hlen] at hscan
  rcases scanPfx_decomp _ rmd [] ret1 none hscan with ⟨hr1, -⟩ |
    ⟨consumed, rest, hds, hcne, hsg⟩
  · rw [hr1] at hp1
    exact absurd hp1 (by decide)
  · obtain ⟨f1, f2, f3, f4, hdisj⟩ := scanGrp_spec rest rmd _ [] ret1 hsg rfl rfl rfl
    have hpfx : ret1.Pfx = consumed := by simpa using f1
    have hcon : consumed = p978 := by rw [← hpfx]; exact hp1
    subst hcon
    rcases hdisj with ⟨hgnil, hrnil, hpnil⟩ | ⟨hgne, t, hcat, ht1, ht2⟩
    · exact absurd hrnil hreg1
    · have ht := ht1 hreg1
      subst ht
      have hrest9 : ret1.RegistrationGroup ++ ret1.Registrant ++ ret1.Publication = rest := by
        simpa [List.append_assoc] using hcat
      have hdl12 : (stripISBN s).dropLast.length = 12 := by
        rw [List.length_dropLast, hlen]
      have hrestlen : rest.length = 9 := by
        have hl := congrArg List.length hds
        rw [hdl12] at hl
        simp [p978] at hl
        omega
      obtain ⟨hmaindig, lc0, hlc0, hlcclass⟩ := chkCharacters_ok h2
      have hrestdig : ∀ c ∈ rest, isGoDigit c = true := by
        intro c hc
        apply hmaindig
        rw [hds]
        exact List.mem_append_right _ hc
      obtain ⟨lc13, hg13, hcalc13eq⟩ := chkCheckDigit_ok_13 hlen h3
      rw [hg] at hg13
      injection hg13 with hlceq
      subst hlceq
      have hrem : (11 - specChecksum10 rest % 11) % 11 ≤ 10 := by omega
      obtain ⟨c10, hc10eq, hc10class⟩ := renderRem10_props _ hrem
      have hcalc10rest : calcCheckDigit10 rest = GoOut.ret ([c10], none) := by
        rw [calcCheckDigit10_digits (by omega)
          (fun c hc => hrestdig c (List.take_subset _ _ hc))]
        rw [specCheckDigit10_eq_render, hc10eq]
      have hcalc10X : calcCheckDigit10
          (ret1.RegistrationGroup ++ (ret1.Registrant ++ (ret1.Publication ++ ['X']))) =
          GoOut.ret ([c10], none) := by
        rw [show ret1.RegistrationGroup ++ (ret1.Registrant ++ (ret1.Publication ++ ['X'])) =
          rest ++ ['X'] from by rw [← hrest9]; simp [List.append_assoc]]
        rw [calcCheckDigit10_append hrestlen, hcalc10rest]
      have hfineq : finish13 ret1 (stripISBN s) lastc =
          GoOut.ret ({ ret1 with
            CheckDigit13 := [lastc], IsValid := true, CheckDigit10 := [c10] }, none) := by
        simp only [finish13]
        rw [hcalc13eq]
        simp [hp1, hcalc10X]
      rw [hfineq] at hfin
      have hru : r = { ret1 with
          CheckDigit13 := [lastc], IsValid := true, CheckDigit10 := [c10] } := by
        have hpair := GoOut.ret.inj hfin
        exact (congrArg Prod.fst hpair).symm
      have hisbn10 : ISBN.ISBN10 r = rest ++ [c10] := by
        rw [hru]
        simp only [ISBN.ISBN10]
        rw [if_pos (by simpa using hp1)]
        show ret1.RegistrationGroup ++ ret1.Registrant ++ ret1.Publication ++ [c10] =
          rest ++ [c10]
        rw [hrest9]
      have hne0 : stripISBN s ≠ [] := by
        intro hc
        rw [hc] at hlen
        simp at hlen
      have hgl : (stripISBN s).getLast hne0 = lastc := by
        rw [List.getLast?_eq_getLast _ hne0] at hg
        injection hg with hgg
      have hsplit : (stripISBN s).dropLast ++ [lastc] = stripISBN s := by
        rw [← hgl]
        exact List.dropLast_append_getLast hne0
      have hstrip2 : stripISBN (rest ++ [c10]) = rest ++ [c10] := by
        apply stripISBN_fixed
        intro c hc
        rcases List.mem_append.mp hc with hcr | hcl
        · exact Or.inl (hrestdig c hcr)
        · rw [List.mem_singleton.mp hcl]
          exact hc10class
      have hlen2 : (rest ++ [c10]).length = 10 := by simp [hrestlen]
      have hch2 : chkCharacters (rest ++ [c10]) = GoOut.ret none := by
        apply chkCharacters_of (by simp)
        · rw [List.dropLast_concat]
          exact hrestdig
        · intro lc hlc
          rw [List.getLast?_concat] at hlc
          injection hlc with hlc
          rw [← hlc]
          exact hc10class
      have hcalc102 : calcCheckDigit10 (rest ++ [c10]) = GoOut.ret ([c10], none) := by
        rw [calcCheckDigit10_append hrestlen]
        exact hcalc10rest
      have hcd2 : chkCheckDigit (rest ++ [c10]) = GoOut.ret none :=
        chkCheckDigit_of_10 hlen2 (List.getLast?_concat rest) hcalc102
      have hsg2 : scanGrp rmd ({ Pfx := p978 } : ISBN) [] rest = (ret1, none) := by
        simpa using hsg
      have hcalc132 : calcCheckDigit13 (p978 ++ (rest ++ [c10])) =
          GoOut.ret ([lastc], none) := by
        have hsh : p978 ++ (rest ++ [c10]) = (stripISBN s).dropLast ++ [c10] := by
          rw [hds]
          simp [List.append_assoc]
        rw [hsh, calcCheckDigit13_append hdl12,
          ← calcCheckDigit13_append (u := [lastc]) hdl12, hsplit]
        exact hcalc13eq
      have hfin10 : finish10 ret1 (rest ++ [c10]) c10 =
          GoOut.ret ({ ret1 with
            CheckDigit13 := [lastc], IsValid := true, CheckDigit10 := [c10] }, none) := by
        simp only [finish10]
        rw [hcalc102]
        simp [hcalc132]
      refine ⟨{ ret1 with
        CheckDigit13 := [lastc], IsValid := true, CheckDigit10 := [c10] }, ?_, ?_⟩
      · rw [hisbn10]
        unfold parseISBN
        rw [hstrip2, chkLength_of_10 hlen2, hch2, hcd2, h4,
          scanISBN_eq_10 hlen2, List.dropLast_concat, hsg2,
          List.getLast?_concat]
        show (if (rest ++ [c10]).length = 10
            then finish10 ret1 (rest ++ [c10]) c10
            else if (rest ++ [c10]).length = 13
              then finish13 ret1 (rest ++ [c10]) c10
              else GoOut.ret (ret1, none)) = GoOut.ret
          ({ ret1 with
            CheckDigit13 := [lastc], IsValid := true, CheckDigit10 := [c10] }, none)
        rw [if_pos hlen2]
        exact hfin10
      · show (if true = true
            then ret1.Pfx ++ ret1.RegistrationGroup ++ ret1.Registrant ++
              ret1.Publication ++ [lastc]
            else []) = stripISBN s
        rw [if_pos rfl, hp1, ← hsplit, hds, ← hrest9]
        simp [List.append_assoc]

/-- Witness for the amended claim C2 at the concrete table `tbl2` and input `s2`. -/
theorem parseISBN_isbn10_roundtrip_witness :
    parseISBN tbl2 s2 = GoOut.ret (R2, none) ∧ (stripISBN s2).length = 13 ∧
    R2.Pfx = p978 ∧ R2.Registrant ≠ [] ∧
    ∃ u, parseISBN tbl2 (ISBN.ISBN10 R2) = GoOut.ret (u, none) ∧
      ISBN.ISBN13 u = stripISBN s2 :=
  ⟨by decide, by decide, by decide, by decide,
    parseISBN_isbn10_roundtrip tbl2 s2 R2 (by decide) (by decide) (by decide) (by decide)⟩

end GoIsbn
